import Mathlib

/-!
Verification of the gate-routing computation of `mergekit/moe/router.py`.

The source file is shallowly embedded over exact rationals: torch tensors
become nested lists of `ℚ`, 2-D tensors are `Mat := List Vec`, 3-D tensors
are `T3 := List Mat`.  External collaborators (the tokenizer, the loaded
model's forward pass, torch's random sources, `math.sqrt`, the lazily
loaded embedding matrix, the pretrained classifier, and torch's L2-norm
kernel) are fields of an `Env` record; theorems quantify over them and,
where a claim relies on an analytic property of such a kernel (for
example that `norm` really is the Euclidean norm at the vectors that
occur), that property is taken as an explicit hypothesis.
-/

namespace MergekitRouter

attribute [local semireducible] Rat.mul Rat.inv Rat.add Rat.sub Nat.gcd

/-- A hidden-size vector: one row of a torch tensor, over exact rationals. -/
abbrev Vec := List ℚ

/-- A 2-D tensor, e.g. `(num_layers, hidden_size)`. -/
abbrev Mat := List Vec

/-- A 3-D tensor, e.g. `(num_layers, num_experts, hidden_size)`. -/
abbrev T3 := List Mat

/-- The clamp floor `1e-8` used in `router.py` lines 66-68 and 201. -/
def eps : ℚ := 1 / 100000000

/-- `x.clamp(min=lo)`: the value `x` raised to the floor `lo`. -/
def clampMin (x lo : ℚ) : ℚ := if x < lo then lo else x

/-- Elementwise addition of two vectors (torch `+` on equal shapes). -/
def vecAdd (a b : Vec) : Vec := List.zipWith (fun x y => x + y) a b

/-- Elementwise subtraction of two vectors (torch `-` on equal shapes). -/
def vecSub (a b : Vec) : Vec := List.zipWith (fun x y => x - y) a b

/-- Scaling of a vector by a scalar. -/
def vecScale (c : ℚ) (v : Vec) : Vec := v.map (fun x => c * x)

/-- Division of a vector by a scalar (torch broadcast division). -/
def vecDiv (v : Vec) (c : ℚ) : Vec := v.map (fun x => x / c)

/-- Sum of a list of vectors of common length `h` (torch `sum` over a
leading dimension). -/
def vecSum (h : Nat) (vs : List Vec) : Vec := vs.foldr vecAdd (List.replicate h 0)

/-- Sum of squares of the entries: the square of the L2 norm. -/
def sumSq (v : Vec) : ℚ := (v.map (fun x => x * x)).sum

/-- Elementwise subtraction of two matrices (torch `-=` at line 197). -/
def matSub (a b : Mat) : Mat := List.zipWith vecSub a b

/-- A padded tokenized batch: `input_ids` of shape `(batch, seq)` and the
0/1 `attention_mask` of the same shape (spec §3 TokenizedBatch). -/
structure TokenizedBatch where
  input_ids : List (List Nat)
  attention_mask : List (List ℚ)
deriving DecidableEq

/-- Modelled from the spec: `mergekit.moe.config.Expert` is not under
`src/`; §3 describes it as an ordered sequence of positive prompt strings
plus a possibly empty sequence of negative prompt strings. -/
structure Expert where
  positive_prompts : List String
  negative_prompts : List String
deriving DecidableEq, Inhabited

/-- Modelled from the spec: the configuration object of
`mergekit.common.ModelReference` (not under `src/`), exposing
`num_hidden_layers`, `hidden_size` and `vocab_size` (spec §6). -/
structure ModelConfig where
  num_hidden_layers : Nat
  hidden_size : Nat
  vocab_size : Nat

/-- The external collaborators of the router (spec §6): tokenizer, random
sources, `math.sqrt`, the lazily loaded embedding matrix, the loaded
model's forward pass (mapping a tokenized batch to the list
`output.hidden_states` of `(batch, seq, hidden)` tensors), the external
classifier of mode `smart_hidden`, and torch's L2-norm kernel. -/
structure Env where
  bos_token : Option String
  tokenize : List String → TokenizedBatch
  randn : Nat → Nat → Nat → ℚ
  rand : Nat → Nat → Nat → ℚ
  sqrt : ℚ → ℚ
  embedTokens : Mat
  forward : TokenizedBatch → List T3
  classifier : Mat → T3
  norm2 : Vec → ℚ

/-- `tokenize_prompts` (router.py lines 72-80): prepend the tokenizer's
BOS token (or the empty string when it has none) to every prompt and
tokenize the batch. -/
def tokenize_prompts (env : Env) (prompts : List String) : TokenizedBatch :=
  env.tokenize (prompts.map (fun p => (env.bos_token.getD "") ++ p))

/-- `get_hidden_states` (router.py lines 30-48): stack all hidden-state
layers except the final one into a `(layers, batch, seq, hidden)` tensor,
reduce over the sequence dimension by the mean (`average = true`) or by
taking the last position (`average = false`), then average over the batch
dimension.  The dimension sizes `b`, `s`, `h` are read off the stacked
tensor exactly as torch's `shape` metadata would give them. -/
def get_hidden_states (hidden_states_out : List T3) (average : Bool) : Mat :=
  let stacked := hidden_states_out.dropLast
  let b := (stacked.headD []).length
  let s := ((stacked.headD []).headD []).length
  let h := (((stacked.headD []).headD []).headD []).length
  let reduced : T3 :=
    if average then
      stacked.map (fun bat => bat.map (fun sm => vecDiv (vecSum h sm) (s : ℚ)))
    else
      stacked.map (fun bat => bat.map (fun sm => sm.getLastD (List.replicate h 0)))
  reduced.map (fun bat => vecDiv (vecSum h bat) (b : ℚ))

/-- The one-hot row of token `id` against `vocab_size` classes
(`torch.nn.functional.one_hot`, router.py line 57). -/
def oneHotRow (vocab_size : Nat) (id : Nat) : Vec :=
  (List.range vocab_size).map (fun j => if id = j then 1 else 0)

/-- A row vector times a matrix, written as the sum of the scaled rows of
the matrix (`onehot.float() @ embed`, router.py line 60). -/
def rowTimesMat (h : Nat) (row : Vec) (m : Mat) : Vec :=
  vecSum h (List.zipWith vecScale row m)

/-- `get_cheap_embedding` (router.py lines 51-69): one-hot encode the
input ids, project through the embedding matrix, mask by attention, sum
over sequence then batch, L2-normalize with the `1e-8` clamp, and
replicate the single resulting vector across all layers. -/
def get_cheap_embedding (norm2 : Vec → ℚ) (embed : Mat)
    (tokenized : TokenizedBatch) (num_layers : Nat) (vocab_size : Nat) : Mat :=
  let h := (embed.headD []).length
  let onehot : T3 := tokenized.input_ids.map (fun ids => ids.map (oneHotRow vocab_size))
  let hmat : T3 := onehot.map (fun seq => seq.map (fun row => rowTimesMat h row embed))
  let masked : T3 :=
    List.zipWith (fun hseq mseq => List.zipWith (fun hv m => vecScale m hv) hseq mseq)
      hmat tokenized.attention_mask
  let seqSummed : Mat := masked.map (vecSum h)
  let embedded : Vec := vecSum h seqSummed
  let res : Vec := vecDiv embedded (clampMin (norm2 embedded) eps)
  List.replicate num_layers res

/-- Per-row L2 normalization with the `1e-8` clamp
(`hidden_states /= hidden_states.norm(p=2, dim=-1, keepdim=True).clamp(min=1e-8)`,
router.py line 201).  `norm2` is torch's L2-norm kernel. -/
def normalizeRows (norm2 : Vec → ℚ) (m : Mat) : Mat :=
  m.map (fun row => vecDiv row (clampMin (norm2 row) eps))

/-- The pre-normalization per-expert matrix of the aggregator loop
(router.py lines 195-199): the strategy applied to the positive prompts,
minus (elementwise) the strategy applied to the negative prompts when the
expert has any. -/
def expertRaw (env : Env) (strategy : TokenizedBatch → Mat) (e : Expert) : Mat :=
  let pos := strategy (tokenize_prompts env e.positive_prompts)
  if e.negative_prompts ≠ [] then
    matSub pos (strategy (tokenize_prompts env e.negative_prompts))
  else pos

/-- One expert's contribution to the gate tensor: the pre-normalization
matrix followed by the per-layer L2 normalization (router.py line 201). -/
def expertGate (env : Env) (strategy : TokenizedBatch → Mat) (e : Expert) : Mat :=
  normalizeRows env.norm2 (expertRaw env strategy e)

/-- `gate_vecs.permute(1, 0, 2)` (router.py line 204) on a stacked
`(num_experts, num_layers, hidden)` tensor, with the layer count read off
the first stacked matrix exactly as torch's shape metadata would. -/
def permute102 (stacked : T3) : T3 :=
  (List.range (stacked.headD []).length).map (fun l => stacked.map (fun m => m.getD l []))

/-- The aggregator loop of `get_gate_params` (router.py lines 193-204):
per expert, strategy on positive prompts, optional subtraction of the
negative-prompt result, per-layer normalization; stack along a new expert
dimension and permute to `(layers, experts, hidden)`. -/
def aggregateGates (env : Env) (strategy : TokenizedBatch → Mat)
    (experts : List Expert) : T3 :=
  permute102 (experts.map (expertGate env strategy))

/-- The `cheap_embed` strategy closure `_do_it` (router.py lines 131-137). -/
def cheapStrategy (env : Env) (cfg : ModelConfig) : TokenizedBatch → Mat :=
  fun tokenized =>
    get_cheap_embedding env.norm2 env.embedTokens tokenized
      cfg.num_hidden_layers cfg.vocab_size

/-- The `hidden`/`hidden_avg`/`hidden_last` strategy closure `_do_it`
(router.py lines 151-154): `average` is true exactly for `hidden_avg`. -/
def hiddenStrategy (env : Env) (average : Bool) : TokenizedBatch → Mat :=
  fun tokenized => get_hidden_states (env.forward tokenized) average

/-- `torch.randn((L, E, H))` (router.py lines 100-102), with the sampled
values supplied by the environment's normal source. -/
def randnTensor (env : Env) (cfg : ModelConfig) (numExperts : Nat) : T3 :=
  (List.range cfg.num_hidden_layers).map (fun l =>
    (List.range numExperts).map (fun e =>
      (List.range cfg.hidden_size).map (fun k => env.randn l e k)))

/-- The `uniform_random` tensor (router.py lines 115-125):
`torch.rand((L, E, H)) * 2 * scale - scale` with
`scale = math.sqrt(1.0 / hidden_size)`. -/
def uniformTensor (env : Env) (cfg : ModelConfig) (numExperts : Nat) : T3 :=
  let scale := env.sqrt (1 / (cfg.hidden_size : ℚ))
  (List.range cfg.num_hidden_layers).map (fun l =>
    (List.range numExperts).map (fun e =>
      (List.range cfg.hidden_size).map (fun k => env.rand l e k * 2 * scale - scale)))

/-- The error outcomes of `get_gate_params`: the `ValueError` for an
unknown routing mode (line 191), a Python `NameError` for a reference to
an undefined name (`combined_weights`/`nn` in the `approach` branch,
`load_pretrained_classifier` at line 166 of the `smart_hidden` branch,
`F` in the `smart_hidden` interpolation branch), and the `ValueError`
raised when the classifier output's expert dimension disagrees with the
expected expert count (lines 179-180; the spec's `ShapeMismatchError`),
carrying the observed and the expected count. -/
inductive RouterError where
  | unknownMode (mode : String)
  | nameError (name : String)
  | shapeMismatch (got expected : Nat)
deriving DecidableEq

/-- The successful return of `get_gate_params`: a gate tensor.  (The
`smart_hidden` branch, which would return its inner closure `doit` at
line 189, never reaches that return: line 166 dereferences the undefined
name `load_pretrained_classifier` first, so no non-tensor success value
is ever produced.) -/
inductive GateOutput where
  | tensor (t : T3)
deriving DecidableEq

instance : DecidableEq (Except RouterError GateOutput)
  | .ok a, .ok b => decidable_of_iff (a = b) (by simp)
  | .ok _, .error _ => Decidable.isFalse (by simp)
  | .error _, .ok _ => Decidable.isFalse (by simp)
  | .error e, .error f => decidable_of_iff (e = f) (by simp)

/-- `routing_probs * hidden_states` (router.py line 188): the pointwise
product of a `(L, E, H)` tensor with a `(L, H)` tensor under torch
broadcasting, written for the aligned case; broadcast legality of the
multiplication is orthogonal to the shape checks under study. -/
def broadcastMul (probs : T3) (hidden : Mat) : T3 :=
  probs.map (fun m =>
    List.zipWith (fun row hv => List.zipWith (fun a b => a * b) row hv) m hidden)

/-- The shape check and repair logic of the `smart_hidden` closure `doit`
(router.py lines 173-188): if the classifier output's shape differs from
`(L, E, H)`, the layer dimension is repaired by `repeat`-and-truncate, an
expert-dimension mismatch raises the `ValueError` of lines 179-180, and a
hidden-dimension mismatch reaches `F.interpolate` where the undefined
name `F` raises a Python `NameError`.  (In execution this closure is
never constructed, because line 166 raises a `NameError` on
`load_pretrained_classifier` before `doit` is defined; the closure body's
logic of lines 173-188 is embedded here on its own.) -/
def smartHiddenDoit (probs : T3) (hidden : Mat)
    (numLayers numExperts hiddenSize : Nat) : Except RouterError T3 :=
  let d0 := probs.length
  let d1 := (probs.headD []).length
  let d2 := ((probs.headD []).headD []).length
  if d0 = numLayers ∧ d1 = numExperts ∧ d2 = hiddenSize then
    .ok (broadcastMul probs hidden)
  else
    let probs1 := if d0 ≠ numLayers then ((List.replicate numLayers probs).flatten).take numLayers else probs
    if (probs1.headD []).length ≠ numExperts then
      .error (.shapeMismatch (probs1.headD []).length numExperts)
    else if ((probs1.headD []).headD []).length ≠ hiddenSize then
      .error (.nameError "F")
    else
      .ok (broadcastMul probs1 hidden)

/-- The full `smart_hidden` closure (router.py lines 168-188): a forward
pass with the default `average = True` reduction, the external
classifier, then the shape check and the product. -/
def smartHiddenStrategy (env : Env) (cfg : ModelConfig) (numExperts : Nat)
    (tokenized : TokenizedBatch) : Except RouterError T3 :=
  let hidden := get_hidden_states (env.forward tokenized) true
  smartHiddenDoit (env.classifier hidden) hidden
    cfg.num_hidden_layers numExperts cfg.hidden_size

/-- `get_gate_params` (router.py lines 83-204).  The mode dispatch in
source order: `random` returns a sampled tensor immediately; `approach`
dereferences the undefined module-level name `combined_weights` (line
108) and so raises a Python `NameError`; `uniform_random` returns a
scaled uniform sample immediately; `cheap_embed` and the three `hidden`
modes install a strategy closure and run the aggregator loop;
`smart_hidden` loads the model (external) and then calls the undefined
module-level name `load_pretrained_classifier` (line 166), raising a
Python `NameError` before its closure `doit` is defined, so the
`return doit` of line 189 is never reached; any other string raises
`ValueError` (line 191). -/
def get_gate_params (env : Env) (cfg : ModelConfig) (experts : List Expert)
    (mode : String) : Except RouterError GateOutput :=
  if mode = "random" then
    .ok (.tensor (randnTensor env cfg experts.length))
  else if mode = "approach" then
    .error (.nameError "combined_weights")
  else if mode = "uniform_random" then
    .ok (.tensor (uniformTensor env cfg experts.length))
  else if mode = "cheap_embed" then
    .ok (.tensor (aggregateGates env (cheapStrategy env cfg) experts))
  else if mode = "hidden" ∨ mode = "hidden_avg" ∨ mode = "hidden_last" then
    .ok (.tensor (aggregateGates env (hiddenStrategy env (mode == "hidden_avg")) experts))
  else if mode = "smart_hidden" then
    .error (.nameError "load_pretrained_classifier")
  else
    .error (.unknownMode mode)

/-- The flagged layer indices of `warn_degenerate_gates` (router.py lines
208-213): all layers whose expert-by-hidden slice has condition number —
computed by the external kernel `cond`, standing for
`torch.linalg.cond` — strictly above the threshold. -/
def degenIndices (cond : Mat → ℚ) (gate_vecs : T3) (threshold : ℚ) : List Nat :=
  (List.range gate_vecs.length).filter
    (fun idx => decide (threshold < cond (gate_vecs.getD idx [])))

/-- The layer phrase and verb of the warning message (router.py lines
215-232). -/
def layerStrVerb (degen : List Nat) (num_layers : Nat) : String × String :=
  if degen.length = 1 then
    ("layer " ++ toString (degen.getD 0 0), "has")
  else if degen.length = 2 then
    ("layers " ++ String.intercalate " and " (degen.map toString), "have")
  else if num_layers ≤ degen.length then
    ("ALL layers", "have")
  else
    ("layers " ++ String.intercalate ", " ((degen.dropLast).map toString)
       ++ ", and " ++ toString (degen.getLastD 0), "have")

/-- `warn_degenerate_gates` (router.py lines 207-238): compute the flagged
layers and return the warning messages that are logged — the empty list
when nothing is degenerate.  The function is total: it never raises. -/
def warn_degenerate_gates (cond : Mat → ℚ) (gate_vecs : T3) (threshold : ℚ) : List String :=
  let degen := degenIndices cond gate_vecs threshold
  if degen ≠ [] then
    let p := layerStrVerb degen gate_vecs.length
    [p.1 ++ " " ++ p.2 ++ " degenerate routing parameters - your prompts may be too similar.",
     "One or more experts will be underutilized in your model."]
  else []

/-- The shape predicate for a 3-D `(L, E, H)` tensor. -/
def dims3Is (t : T3) (L E H : Nat) : Prop :=
  t.length = L ∧ ∀ m ∈ t, m.length = E ∧ ∀ v ∈ m, v.length = H

/-- Follows the spec's words only (§4.2, mode `hidden`): stack all
hidden-state layers except the final one, reduce over sequence position
by the MEAN, then average over batch.  Declared solely to compare with
the source translation `get_hidden_states`. -/
def hiddenMeanSpec (h : Nat) (hidden_states_out : List T3) : Mat :=
  (hidden_states_out.dropLast).map (fun bat =>
    vecDiv (vecSum h (bat.map (fun sm => vecDiv (vecSum h sm) (sm.length : ℚ))))
      (bat.length : ℚ))

/-- Follows the spec's words only (§4.2 strategy table): the documented
strategy set — the table rows `random`, `uniform_random`, `cheap_embed`,
`hidden`/`hidden_avg`/`hidden_last`, and the external classifier mode
`smart_hidden`. -/
def specDocumentedModes : List String :=
  ["random", "uniform_random", "cheap_embed", "hidden", "hidden_avg", "hidden_last",
   "smart_hidden"]

/-- The mode strings recognized by the dispatch of `get_gate_params`
(router.py lines 99-191): the documented strategies plus the undocumented
`approach` branch. -/
def dispatchModes : List String :=
  ["random", "approach", "uniform_random", "cheap_embed", "hidden", "hidden_avg",
   "hidden_last", "smart_hidden"]

/-! ### Concrete fixtures used by closed theorems

Small environments with explicit tokenizers, forward passes and norm
kernels, used to evaluate the embedded code at concrete inputs.  Where a
fixture's `norm2` matters to a result, it agrees with the exact Euclidean
norm on every vector at which it is consulted. -/

/-- A minimal environment for a model with one layer, hidden size 1. -/
def envTriv : Env where
  bos_token := none
  tokenize := fun _ => ⟨[[0]], [[1]]⟩
  randn := fun _ _ _ => 0
  rand := fun _ _ _ => 0
  sqrt := fun _ => 0
  embedTokens := [[1]]
  forward := fun _ => [[[[1]]], [[[1]]]]
  classifier := fun _ => [[[1]]]
  norm2 := fun _ => 1

def cfgTriv : ModelConfig := ⟨1, 1, 1⟩

def expertTriv : Expert := ⟨["p"], []⟩

/-- Config with two layers for the `cheap_embed` layer-invariance check. -/
def cfgW8 : ModelConfig := ⟨2, 1, 1⟩

/-- Environment whose forward pass returns one real layer (batch 1, two
sequence positions, hidden size 2) plus the final hidden-state layer that
`get_hidden_states` drops.  Position vectors differ, so mean-over-sequence
and last-position reductions disagree. -/
def envC2 : Env where
  bos_token := none
  tokenize := fun _ => ⟨[[0]], [[1]]⟩
  randn := fun _ _ _ => 0
  rand := fun _ _ _ => 0
  sqrt := fun _ => 0
  embedTokens := [[1]]
  forward := fun _ => [[[[1, 0], [0, 1]]], [[[9, 9], [9, 9]]]]
  classifier := fun _ => []
  norm2 := fun _ => 1

def cfgC2 : ModelConfig := ⟨1, 2, 1⟩

def expertC2 : Expert := ⟨["p"], []⟩

/-- Environment whose embedding matrix holds a single tiny weight, so the
raw `cheap_embed` vector has positive norm below the `1e-8` clamp; its
`norm2` is the exact Euclidean norm on width-1 vectors. -/
def envC4 : Env where
  bos_token := none
  tokenize := fun _ => ⟨[[0]], [[1]]⟩
  randn := fun _ _ _ => 0
  rand := fun _ _ _ => 0
  sqrt := fun _ => 0
  embedTokens := [[1 / 100000000000000000000]]
  forward := fun _ => []
  classifier := fun _ => []
  norm2 := fun v => if v.headD 0 < 0 then -(v.headD 0) else v.headD 0

def cfgC4 : ModelConfig := ⟨1, 1, 1⟩

def expertC4 : Expert := ⟨["p"], []⟩

/-- Environment whose `norm2` is the exact Euclidean norm at the one raw
vector `[3, 4]` produced by `strategyW4`. -/
def envW4 : Env where
  bos_token := none
  tokenize := fun _ => ⟨[[0]], [[1]]⟩
  randn := fun _ _ _ => 0
  rand := fun _ _ _ => 0
  sqrt := fun _ => 0
  embedTokens := [[1]]
  forward := fun _ => []
  classifier := fun _ => []
  norm2 := fun v => if v = [3, 4] then 5 else 0

def strategyW4 : TokenizedBatch → Mat := fun _ => [[3, 4]]

def expertW4 : Expert := ⟨["p"], []⟩

/-- Environment whose tokenizer distinguishes the positive prompt "P"
from the negative prompt "N". -/
def envW5 : Env where
  bos_token := none
  tokenize := fun ps => if ps = ["P"] then ⟨[[0]], [[1]]⟩ else ⟨[[1]], [[1]]⟩
  randn := fun _ _ _ => 0
  rand := fun _ _ _ => 0
  sqrt := fun _ => 0
  embedTokens := [[1]]
  forward := fun _ => []
  classifier := fun _ => []
  norm2 := fun _ => 1

/-- A strategy returning `[[10, 20]]` on the positive batch and `[[1, 2]]`
on any other batch. -/
def strategyW5 : TokenizedBatch → Mat :=
  fun tok => if tok.input_ids = [[0]] then [[10, 20]] else [[1, 2]]

def expertW5 : Expert := ⟨["P"], ["N"]⟩

/-- A condition-number kernel that returns 6 on every matrix; the gate
matrix `gvW7` below has two identical expert rows, for which the true
`torch.linalg.cond` is infinite, so any value above the threshold 5 is a
faithful stand-in. -/
def condW7 : Mat → ℚ := fun _ => 6

/-- One layer whose two expert vectors are identical. -/
def gvW7 : T3 := [[[1, 0], [1, 0]]]

/-- Environment for `uniform_random` with hidden size 4: `sqrt` is exact
at `1/4` and the uniform source is the constant `1/2 ∈ [0, 1)`. -/
def envW9 : Env where
  bos_token := none
  tokenize := fun _ => ⟨[[0]], [[1]]⟩
  randn := fun _ _ _ => 0
  rand := fun _ _ _ => 1 / 2
  sqrt := fun q => if q = 1 / 4 then 1 / 2 else 0
  embedTokens := [[1]]
  forward := fun _ => []
  classifier := fun _ => []
  norm2 := fun _ => 1

def cfgW9 : ModelConfig := ⟨1, 4, 1⟩

def expertW9 : Expert := ⟨["p"], []⟩

/-- A classifier output of shape `(1, 1, 2)` used against expected
dimensions `(2, 1, 2)`: only the layer dimension mismatches. -/
def probsW6 : T3 := [[[1, 1]]]

def hiddenW6 : Mat := [[2, 2]]

/-! ### Generic list and vector lemmas -/

lemma getD_map {α β : Type*} (f : α → β) (d : β) (d₀ : α) :
    ∀ (l : List α) (i : Nat), i < l.length → (l.map f).getD i d = f (l.getD i d₀)
  | _ :: _, 0, _ => rfl
  | _ :: l, i + 1, h =>
    getD_map f d d₀ l i (Nat.lt_of_succ_lt_succ (by simpa using h))

lemma getD_zipWith {α β γ : Type*} (f : α → β → γ) (da : α) (db : β) (dc : γ) :
    ∀ (a : List α) (b : List β) (i : Nat), i < a.length → i < b.length →
      (List.zipWith f a b).getD i dc = f (a.getD i da) (b.getD i db)
  | _ :: _, _ :: _, 0, _, _ => rfl
  | _ :: a, _ :: b, i + 1, ha, hb =>
    getD_zipWith f da db dc a b i (Nat.lt_of_succ_lt_succ (by simpa using ha))
      (Nat.lt_of_succ_lt_succ (by simpa using hb))

lemma getD_replicate {α : Type*} (a d : α) :
    ∀ (n i : Nat), i < n → (List.replicate n a).getD i d = a
  | _ + 1, 0, _ => rfl
  | n + 1, i + 1, h =>
    getD_replicate a d n i (Nat.lt_of_succ_lt_succ h)

lemma getD_range (d : Nat) : ∀ (n i : Nat), i < n → (List.range n).getD i d = i := by
  intro n i h
  rw [List.getD_eq_getElem _ _ (by simpa using h)]
  simp

lemma getD_mem {α : Type*} {l : List α} {i : Nat} (d : α) (h : i < l.length) :
    l.getD i d ∈ l := by
  rw [List.getD_eq_getElem _ _ h]
  exact List.getElem_mem h

lemma mem_zipWith {α β γ : Type*} {f : α → β → γ} :
    ∀ {a : List α} {b : List β} {c : γ}, c ∈ List.zipWith f a b →
      ∃ x ∈ a, ∃ y ∈ b, c = f x y := by
  intro a
  induction a with
  | nil => intro b c h; simp at h
  | cons x a ih =>
    intro b c h
    cases b with
    | nil => simp at h
    | cons y b =>
      simp only [List.zipWith_cons_cons, List.mem_cons] at h
      rcases h with h | h
      · exact ⟨x, by simp, y, by simp, h⟩
      · obtain ⟨x', hx, y', hy, hc⟩ := ih h
        exact ⟨x', by simp [hx], y', by simp [hy], hc⟩

lemma headD_mem {α : Type*} {l : List α} (d : α) (h : l ≠ []) : l.headD d ∈ l := by
  cases l with
  | nil => exact absurd rfl h
  | cons a l => simp

lemma getLastD_mem {α : Type*} : ∀ (l : List α) (d : α), l ≠ [] → l.getLastD d ∈ l := by
  intro l
  induction l with
  | nil => intro d h; exact absurd rfl h
  | cons a l ih =>
    intro d _
    cases l with
    | nil => simp [List.getLastD]
    | cons b t =>
      have := ih a (by simp)
      simp only [List.getLastD]
      exact List.mem_cons.mpr (Or.inr this)

lemma headD_dropLast {α : Type*} (d : α) :
    ∀ (l : List α), 2 ≤ l.length → l.dropLast.headD d = l.headD d := by
  intro l h
  match l, h with
  | a :: b :: t, _ => simp

lemma vecDiv_length (v : Vec) (c : ℚ) : (vecDiv v c).length = v.length :=
  List.length_map _ _

lemma vecAdd_length (a b : Vec) : (vecAdd a b).length = min a.length b.length :=
  List.length_zipWith _ _ _

lemma vecSum_length {h : Nat} {vs : List Vec} (hv : ∀ v ∈ vs, v.length = h) :
    (vecSum h vs).length = h := by
  induction vs with
  | nil => simp [vecSum]
  | cons v vs ih =>
    have hvs : ∀ w ∈ vs, w.length = h := fun w hw => hv w (by simp [hw])
    have : (vecSum h (v :: vs)) = vecAdd v (vecSum h vs) := rfl
    rw [this, vecAdd_length, ih hvs, hv v (by simp)]
    exact Nat.min_self h

lemma sumSq_nonneg (v : Vec) : 0 ≤ sumSq v := by
  induction v with
  | nil => simp [sumSq]
  | cons x v ih =>
    have hx : 0 ≤ x * x := mul_self_nonneg x
    simpa [sumSq] using add_nonneg hx (by simpa [sumSq] using ih)

lemma sumSq_cons (x : ℚ) (v : Vec) : sumSq (x :: v) = x * x + sumSq v := by
  simp [sumSq]

lemma sumSq_vecDiv (v : Vec) (c : ℚ) : sumSq (vecDiv v c) = sumSq v / (c * c) := by
  induction v with
  | nil => simp [sumSq, vecDiv]
  | cons x v ih =>
    have : vecDiv (x :: v) c = (x / c) :: vecDiv v c := rfl
    rw [this, sumSq_cons, sumSq_cons, ih, div_mul_div_comm, add_div]

lemma sumSq_eq_zero {v : Vec} (h : sumSq v = 0) : ∀ x ∈ v, x = 0 := by
  induction v with
  | nil => simp
  | cons y v ih =>
    rw [sumSq_cons] at h
    have hy : 0 ≤ y * y := mul_self_nonneg y
    have hv : 0 ≤ sumSq v := sumSq_nonneg v
    have hy0 : y * y = 0 := le_antisymm (by linarith) hy
    have hv0 : sumSq v = 0 := le_antisymm (by linarith) hv
    intro x hx
    rcases List.mem_cons.mp hx with rfl | hx
    · exact mul_self_eq_zero.mp hy0
    · exact ih hv0 x hx

lemma vecDiv_all_zero {a : Vec} (h : ∀ x ∈ a, x = 0) (c : ℚ) :
    vecDiv a c = List.replicate a.length 0 := by
  induction a with
  | nil => rfl
  | cons x t ih =>
    have hx : x = 0 := h x (by simp)
    have ht : vecDiv t c = List.replicate t.length 0 :=
      ih (fun y hy => h y (by simp [hy]))
    simp only [vecDiv, List.map_cons, List.length_cons, List.replicate_succ]
    rw [hx, zero_div]
    exact congrArg _ (by simpa [vecDiv] using ht)

lemma flatten_replicate_take_headD {L : Nat} {probs : T3}
    (hL : 0 < L) (h0 : probs ≠ []) :
    (((List.replicate L probs).flatten).take L).headD [] = probs.headD [] := by
  cases L with
  | zero => exact absurd hL (by simp)
  | succ n =>
    cases probs with
    | nil => exact absurd rfl h0
    | cons a t =>
      simp [List.replicate_succ, List.take_succ_cons]

lemma flatten_replicate_take_length {L : Nat} {probs : T3} (h0 : probs ≠ []) :
    (((List.replicate L probs).flatten).take L).length = L := by
  rw [List.length_take]
  apply Nat.min_eq_left
  rw [List.length_flatten, List.map_replicate, List.sum_replicate, smul_eq_mul]
  have h1 : 1 ≤ probs.length := List.length_pos.mpr h0
  calc L = L * 1 := (Nat.mul_one L).symm
  _ ≤ L * probs.length := Nat.mul_le_mul_left L h1

/-! ### Shape lemmas -/

lemma vecScale_length (c : ℚ) (v : Vec) : (vecScale c v).length = v.length :=
  List.length_map _ _

lemma dims3Is_grid (f : Nat → Nat → Nat → ℚ) (L E H : Nat) :
    dims3Is ((List.range L).map (fun l => (List.range E).map (fun e =>
      (List.range H).map (fun k => f l e k)))) L E H := by
  refine ⟨by simp, ?_⟩
  intro m hm
  simp only [List.mem_map] at hm
  obtain ⟨l, -, rfl⟩ := hm
  refine ⟨by simp, ?_⟩
  intro v hv
  simp only [List.mem_map] at hv
  obtain ⟨e, -, rfl⟩ := hv
  simp

lemma randnTensor_dims (env : Env) (cfg : ModelConfig) (numExperts : Nat) :
    dims3Is (randnTensor env cfg numExperts)
      cfg.num_hidden_layers numExperts cfg.hidden_size :=
  dims3Is_grid _ _ _ _

lemma uniformTensor_dims (env : Env) (cfg : ModelConfig) (numExperts : Nat) :
    dims3Is (uniformTensor env cfg numExperts)
      cfg.num_hidden_layers numExperts cfg.hidden_size :=
  dims3Is_grid _ _ _ _

lemma rowTimesMat_length {h : Nat} {embed : Mat}
    (hemb : ∀ v ∈ embed, v.length = h) (row : Vec) :
    (rowTimesMat h row embed).length = h := by
  apply vecSum_length
  intro v hv
  obtain ⟨x, -, y, hy, rfl⟩ := mem_zipWith hv
  rw [vecScale_length]
  exact hemb y hy

lemma cheapStrategy_length (env : Env) (cfg : ModelConfig) (tok : TokenizedBatch) :
    (cheapStrategy env cfg tok).length = cfg.num_hidden_layers := by
  simp [cheapStrategy, get_cheap_embedding]

lemma cheapStrategy_rows {env : Env} {cfg : ModelConfig}
    (hne : env.embedTokens ≠ [])
    (hemb : ∀ v ∈ env.embedTokens, v.length = cfg.hidden_size)
    (tok : TokenizedBatch) :
    ∀ v ∈ cheapStrategy env cfg tok, v.length = cfg.hidden_size := by
  intro v hv
  have hh : (env.embedTokens.headD []).length = cfg.hidden_size :=
    hemb _ (headD_mem [] hne)
  have hemb' : ∀ w ∈ env.embedTokens, w.length = (env.embedTokens.headD []).length := by
    intro w hw; rw [hemb w hw, hh]
  simp only [cheapStrategy, get_cheap_embedding, List.mem_replicate] at hv
  obtain ⟨-, rfl⟩ := hv
  rw [vecDiv_length, ← hh]
  apply vecSum_length
  intro w hw
  simp only [List.mem_map] at hw
  obtain ⟨mrow, hmrow, rfl⟩ := hw
  apply vecSum_length
  intro u hu
  obtain ⟨hseq, hhseq, mseq, -, rfl⟩ := mem_zipWith hmrow
  obtain ⟨hv0, hhv0, msk, -, rfl⟩ := mem_zipWith hu
  rw [vecScale_length]
  simp only [List.mem_map] at hhseq
  obtain ⟨seq, -, rfl⟩ := hhseq
  simp only [List.mem_map] at hhv0
  obtain ⟨row, -, rfl⟩ := hhv0
  exact rowTimesMat_length hemb' row

lemma get_hidden_states_length (out : List T3) (avg : Bool) :
    (get_hidden_states out avg).length = out.length - 1 := by
  cases avg <;> simp [get_hidden_states]

lemma get_hidden_states_rows {out : List T3} {H : Nat}
    (hb : ∀ bat ∈ out, bat ≠ [] ∧ ∀ sm ∈ bat, sm ≠ [] ∧ ∀ v ∈ sm, v.length = H)
    (avg : Bool) :
    ∀ v ∈ get_hidden_states out avg, v.length = H := by
  intro v hv
  have hsub : ∀ bat ∈ out.dropLast, bat ∈ out := fun bat h =>
    (List.dropLast_sublist out).subset h
  cases avg <;>
    simp only [get_hidden_states, Bool.false_eq_true, if_true, if_false,
      List.mem_map, cond_eq_if] at hv
  case false =>
    obtain ⟨bat1, hbat1, rfl⟩ := hv
    obtain ⟨bat, hbat, rfl⟩ := hbat1
    have hne : out.dropLast ≠ [] := List.ne_nil_of_mem hbat
    have hbat0 := hb _ (hsub _ (headD_mem [] hne))
    have hsm0 := hbat0.2 _ (headD_mem [] hbat0.1)
    have hh : (((out.dropLast.headD []).headD []).headD []).length = H :=
      hsm0.2 _ (headD_mem [] hsm0.1)
    rw [vecDiv_length, ← hh]
    apply vecSum_length
    intro w hw
    simp only [List.mem_map] at hw
    obtain ⟨sm, hsm, rfl⟩ := hw
    have hsmp := (hb _ (hsub _ hbat)).2 _ hsm
    rw [hsmp.2 _ (getLastD_mem _ _ hsmp.1), hh]
  case true =>
    obtain ⟨bat1, hbat1, rfl⟩ := hv
    obtain ⟨bat, hbat, rfl⟩ := hbat1
    have hne : out.dropLast ≠ [] := List.ne_nil_of_mem hbat
    have hbat0 := hb _ (hsub _ (headD_mem [] hne))
    have hsm0 := hbat0.2 _ (headD_mem [] hbat0.1)
    have hh : (((out.dropLast.headD []).headD []).headD []).length = H :=
      hsm0.2 _ (headD_mem [] hsm0.1)
    rw [vecDiv_length, ← hh]
    apply vecSum_length
    intro w hw
    simp only [List.mem_map] at hw
    obtain ⟨sm, hsm, rfl⟩ := hw
    rw [vecDiv_length]
    apply vecSum_length
    intro u hu
    rw [((hb _ (hsub _ hbat)).2 _ hsm).2 _ hu, hh]

lemma expertRaw_length {env : Env} {strategy : TokenizedBatch → Mat} {L : Nat}
    (hlen : ∀ tok, (strategy tok).length = L) (e : Expert) :
    (expertRaw env strategy e).length = L := by
  unfold expertRaw
  split
  · rw [matSub, List.length_zipWith, hlen, hlen, Nat.min_self]
  · exact hlen _

lemma expertRaw_rows {env : Env} {strategy : TokenizedBatch → Mat} {H : Nat}
    (hrows : ∀ tok, ∀ v ∈ strategy tok, v.length = H) (e : Expert) :
    ∀ v ∈ expertRaw env strategy e, v.length = H := by
  intro v hv
  unfold expertRaw at hv
  split at hv
  · obtain ⟨a, ha, b, hb, rfl⟩ := mem_zipWith hv
    rw [vecSub, List.length_zipWith, hrows _ _ ha, hrows _ _ hb, Nat.min_self]
  · exact hrows _ _ hv

lemma expertGate_length {env : Env} {strategy : TokenizedBatch → Mat} {L : Nat}
    (hlen : ∀ tok, (strategy tok).length = L) (e : Expert) :
    (expertGate env strategy e).length = L := by
  unfold expertGate normalizeRows
  rw [List.length_map]
  exact expertRaw_length hlen e

lemma expertGate_rows {env : Env} {strategy : TokenizedBatch → Mat} {H : Nat}
    (hrows : ∀ tok, ∀ v ∈ strategy tok, v.length = H) (e : Expert) :
    ∀ v ∈ expertGate env strategy e, v.length = H := by
  intro v hv
  unfold expertGate normalizeRows at hv
  simp only [List.mem_map] at hv
  obtain ⟨row, hrow, rfl⟩ := hv
  rw [vecDiv_length]
  exact expertRaw_rows hrows e row hrow

lemma aggregateGates_dims {env : Env} {strategy : TokenizedBatch → Mat}
    {experts : List Expert} {L H : Nat}
    (hne : experts ≠ [])
    (hlen : ∀ tok, (strategy tok).length = L)
    (hrows : ∀ tok, ∀ v ∈ strategy tok, v.length = H) :
    dims3Is (aggregateGates env strategy experts) L experts.length H := by
  unfold aggregateGates permute102
  have hhead : ((experts.map (expertGate env strategy)).headD []).length = L := by
    cases experts with
    | nil => exact absurd rfl hne
    | cons x xs => exact expertGate_length hlen x
  refine ⟨by rw [List.length_map, List.length_range, hhead], ?_⟩
  intro m hm
  simp only [List.mem_map, List.mem_range] at hm
  obtain ⟨l, hl, rfl⟩ := hm
  rw [hhead] at hl
  refine ⟨by simp, ?_⟩
  intro v hv
  simp only [List.mem_map] at hv
  obtain ⟨mat, hmat, rfl⟩ := hv
  obtain ⟨e, -, rfl⟩ := hmat
  have hml : (expertGate env strategy e).length = L := expertGate_length hlen e
  exact expertGate_rows hrows e _ (getD_mem [] (by rw [hml]; exact hl))

lemma permute102_getD {stacked : T3} {i e : Nat}
    (hi : i < (stacked.headD []).length) (he : e < stacked.length) :
    ((permute102 stacked).getD i []).getD e [] = (stacked.getD e []).getD i [] := by
  unfold permute102
  rw [getD_map _ _ 0 _ i (by simpa using hi), getD_range _ _ _ hi,
    getD_map _ _ [] _ e he]

lemma cheapStrategy_getD_const (env : Env) (cfg : ModelConfig) (tok : TokenizedBatch)
    {i j : Nat} (hi : i < cfg.num_hidden_layers) (hj : j < cfg.num_hidden_layers) :
    (cheapStrategy env cfg tok).getD i [] = (cheapStrategy env cfg tok).getD j [] := by
  simp only [cheapStrategy, get_cheap_embedding]
  rw [getD_replicate _ _ _ _ hi, getD_replicate _ _ _ _ hj]

lemma expertGate_cheap_rows_eq (env : Env) (cfg : ModelConfig) (e : Expert)
    {i j : Nat} (hi : i < cfg.num_hidden_layers) (hj : j < cfg.num_hidden_layers) :
    (expertGate env (cheapStrategy env cfg) e).getD i [] =
      (expertGate env (cheapStrategy env cfg) e).getD j [] := by
  have hlen := cheapStrategy_length env cfg
  have hraw : (expertRaw env (cheapStrategy env cfg) e).getD i [] =
      (expertRaw env (cheapStrategy env cfg) e).getD j [] := by
    simp only [expertRaw]
    split
    · simp only [matSub]
      rw [getD_zipWith vecSub [] [] [] _ _ i (by rw [hlen]; exact hi) (by rw [hlen]; exact hi),
        getD_zipWith vecSub [] [] [] _ _ j (by rw [hlen]; exact hj) (by rw [hlen]; exact hj),
        cheapStrategy_getD_const env cfg _ hi hj,
        cheapStrategy_getD_const env cfg _ hi hj]
    · exact cheapStrategy_getD_const env cfg _ hi hj
  have hrawlen : (expertRaw env (cheapStrategy env cfg) e).length = cfg.num_hidden_layers :=
    expertRaw_length hlen e
  simp only [expertGate, normalizeRows]
  rw [getD_map _ [] [] _ i (by rw [hrawlen]; exact hi),
    getD_map _ [] [] _ j (by rw [hrawlen]; exact hj), hraw]

/-! ### Reduction of the mode dispatch at each literal mode string -/

lemma gp_random (env : Env) (cfg : ModelConfig) (experts : List Expert) :
    get_gate_params env cfg experts "random" =
      .ok (.tensor (randnTensor env cfg experts.length)) := rfl

lemma gp_approach (env : Env) (cfg : ModelConfig) (experts : List Expert) :
    get_gate_params env cfg experts "approach" =
      .error (.nameError "combined_weights") := rfl

lemma gp_uniform (env : Env) (cfg : ModelConfig) (experts : List Expert) :
    get_gate_params env cfg experts "uniform_random" =
      .ok (.tensor (uniformTensor env cfg experts.length)) := rfl

lemma gp_cheap (env : Env) (cfg : ModelConfig) (experts : List Expert) :
    get_gate_params env cfg experts "cheap_embed" =
      .ok (.tensor (aggregateGates env (cheapStrategy env cfg) experts)) := rfl

lemma gp_hidden (env : Env) (cfg : ModelConfig) (experts : List Expert) :
    get_gate_params env cfg experts "hidden" =
      .ok (.tensor (aggregateGates env (hiddenStrategy env false) experts)) := rfl

lemma gp_hidden_avg (env : Env) (cfg : ModelConfig) (experts : List Expert) :
    get_gate_params env cfg experts "hidden_avg" =
      .ok (.tensor (aggregateGates env (hiddenStrategy env true) experts)) := rfl

lemma gp_hidden_last (env : Env) (cfg : ModelConfig) (experts : List Expert) :
    get_gate_params env cfg experts "hidden_last" =
      .ok (.tensor (aggregateGates env (hiddenStrategy env false) experts)) := rfl

lemma gp_smart (env : Env) (cfg : ModelConfig) (experts : List Expert) :
    get_gate_params env cfg experts "smart_hidden" =
      .error (.nameError "load_pretrained_classifier") := rfl

lemma envW9_hrand : ∀ l e k : Nat, 0 ≤ envW9.rand l e k ∧ envW9.rand l e k < 1 := by
  intro l e k
  show (0 : ℚ) ≤ 1 / 2 ∧ (1 : ℚ) / 2 < 1
  exact ⟨by decide, by decide⟩

lemma envTriv_hfwd : ∀ tok : TokenizedBatch,
    (envTriv.forward tok).length = cfgTriv.num_hidden_layers + 1 ∧
    ∀ bat ∈ envTriv.forward tok, bat ≠ [] ∧ ∀ sm ∈ bat, sm ≠ [] ∧
      ∀ v ∈ sm, v.length = cfgTriv.hidden_size := by
  intro tok
  show ([[[[(1 : ℚ)]]], [[[1]]]] : List T3).length = 1 + 1 ∧
    ∀ bat ∈ ([[[[(1 : ℚ)]]], [[[1]]]] : List T3), bat ≠ [] ∧ ∀ sm ∈ bat, sm ≠ [] ∧
      ∀ v ∈ sm, v.length = 1
  decide

/-! ### Claim theorems -/

/-- C10: for the mode string "approach", `get_gate_params` neither raises
the unknown-mode `ValueError` (the spec's ConfigurationError) nor returns
a gate tensor: the branch is accepted by the dispatch but dereferences the
undefined module-level name `combined_weights` (router.py line 108), so it
always fails with a Python `NameError` and no caller can obtain a result
in this mode. -/
theorem c10_approach_unbound_name (env : Env) (cfg : ModelConfig) (experts : List Expert) :
    get_gate_params env cfg experts "approach" = .error (.nameError "combined_weights") ∧
    (∀ m, get_gate_params env cfg experts "approach" ≠ .error (.unknownMode m)) ∧
    (∀ t, get_gate_params env cfg experts "approach" ≠ .ok (.tensor t)) := by
  refine ⟨gp_approach env cfg experts, fun m hm => ?_, fun t ht => ?_⟩
  · rw [gp_approach] at hm
    exact absurd hm (by simp)
  · rw [gp_approach] at ht
    exact absurd ht (by simp)

/-- C3 counterexample: "approach" lies outside the documented strategy set
of spec §4.2, yet `get_gate_params` does not fail with the unknown-mode
`ValueError` there — it fails with a `NameError` instead.  So the claim
"every mode string outside the documented strategy set fails with a
ConfigurationError" is false at the input mode = "approach". -/
theorem c3_counterexample :
    ("approach" ∈ dispatchModes ∧ "approach" ∉ specDocumentedModes) ∧
    get_gate_params envTriv cfgTriv [expertTriv] "approach" ≠
      .error (.unknownMode "approach") ∧
    get_gate_params envTriv cfgTriv [expertTriv] "approach" =
      .error (.nameError "combined_weights") := by
  refine ⟨⟨by decide, by decide⟩, ?_, gp_approach envTriv cfgTriv [expertTriv]⟩
  rw [gp_approach]
  simp

/-- C3 (amended): for every mode string outside the dispatch set — the
documented strategies plus the undocumented "approach" branch —
`get_gate_params` fails with the unknown-mode `ValueError` of router.py
line 191 (the spec's ConfigurationError), for every environment: in
particular before any tokenizer interaction. -/
theorem c3_unknown_mode_config_error (mode : String) (hmode : mode ∉ dispatchModes)
    (env : Env) (cfg : ModelConfig) (experts : List Expert) :
    get_gate_params env cfg experts mode = .error (.unknownMode mode) := by
  simp only [dispatchModes, List.mem_cons, List.not_mem_nil, or_false] at hmode
  push_neg at hmode
  obtain ⟨h1, h2, h3, h4, h5, h6, h7, h8⟩ := hmode
  unfold get_gate_params
  rw [if_neg h1, if_neg h2, if_neg h3, if_neg h4,
    if_neg (by simp [h5, h6, h7]), if_neg h8]

/-- C3 witness: the amended theorem at the concrete mode "bogus_mode". -/
theorem c3_witness :
    get_gate_params envTriv cfgTriv [expertTriv] "bogus_mode" =
      .error (.unknownMode "bogus_mode") :=
  c3_unknown_mode_config_error "bogus_mode" (by decide) envTriv cfgTriv [expertTriv]

/-- C2 counterexample: in mode "hidden" the sequence reduction is NOT the
mean.  With a forward pass whose single real layer holds position vectors
`[1, 0]` and `[0, 1]`, `get_gate_params` in mode "hidden" yields the
last-position gate `[[[0, 1]]]`, which differs from the value the claim
prescribes — the pipeline built from the spec's mean reduction
(`hiddenMeanSpec`), which yields `[[[1/2, 1/2]]]` here. -/
theorem c2_counterexample :
    get_gate_params envC2 cfgC2 [expertC2] "hidden" = .ok (.tensor [[[0, 1]]]) ∧
    permute102 [normalizeRows envC2.norm2
        (hiddenMeanSpec 2 (envC2.forward
          (tokenize_prompts envC2 expertC2.positive_prompts)))] =
      [[[1 / 2, 1 / 2]]] ∧
    get_gate_params envC2 cfgC2 [expertC2] "hidden" ≠
      .ok (.tensor (permute102 [normalizeRows envC2.norm2
        (hiddenMeanSpec 2 (envC2.forward
          (tokenize_prompts envC2 expertC2.positive_prompts)))])) := by
  refine ⟨by decide, by decide, ?_⟩
  intro h
  rw [gp_hidden] at h
  revert h
  decide

/-- C2 (amended): mode "hidden" behaves like "hidden_last", not like
"hidden_avg": the dispatch passes `average = (mode == "hidden_avg")` to
`get_hidden_states` (router.py line 153), so "hidden" and "hidden_last"
both take the last sequence position and only "hidden_avg" takes the mean
over sequence positions. -/
theorem c2_hidden_uses_last (env : Env) (cfg : ModelConfig) (experts : List Expert) :
    get_gate_params env cfg experts "hidden" =
      get_gate_params env cfg experts "hidden_last" ∧
    get_gate_params env cfg experts "hidden" =
      .ok (.tensor (aggregateGates env (hiddenStrategy env false) experts)) ∧
    get_gate_params env cfg experts "hidden_avg" =
      .ok (.tensor (aggregateGates env (hiddenStrategy env true) experts)) :=
  ⟨(gp_hidden env cfg experts).trans (gp_hidden_last env cfg experts).symm,
   gp_hidden env cfg experts, gp_hidden_avg env cfg experts⟩

/-- C1 counterexample: "smart_hidden" is a recognized (and documented)
mode — the dispatch accepts it and does not raise the unknown-mode
`ValueError` — yet `get_gate_params` never returns a 3-D tensor there:
router.py line 166 calls the undefined module-level name
`load_pretrained_classifier`, raising a Python `NameError` before the
inner closure `doit` even exists, so the claim "for every recognized
mode ... returns a 3-D numeric tensor" is false at
mode = "smart_hidden". -/
theorem c1_counterexample :
    get_gate_params envTriv cfgTriv [expertTriv] "smart_hidden" =
      .error (.nameError "load_pretrained_classifier") ∧
    (∀ m, get_gate_params envTriv cfgTriv [expertTriv] "smart_hidden" ≠
      .error (.unknownMode m)) ∧
    ¬ (∃ t, get_gate_params envTriv cfgTriv [expertTriv] "smart_hidden" =
      .ok (.tensor t)) := by
  refine ⟨gp_smart envTriv cfgTriv [expertTriv], fun m hm => ?_, fun h => ?_⟩
  · rw [gp_smart] at hm
    exact absurd hm (by simp)
  · obtain ⟨t, ht⟩ := h
    rw [gp_smart] at ht
    exact absurd ht (by simp)

/-- C1 (amended): for the six tensor-returning modes — `random`,
`uniform_random`, `cheap_embed`, `hidden`, `hidden_avg`, `hidden_last` —
and every non-empty expert list, `get_gate_params` returns a 3-D tensor
of shape `(num_layers, num_experts, hidden_size)`, the prompt-based modes
obtaining it by stacking per-expert `(layers, hidden)` matrices and
permuting to layer-major order.  The excluded recognized modes are
`approach` and `smart_hidden`, both of which always fail with a Python
`NameError` on an undefined name (`combined_weights` at line 108 and
`load_pretrained_classifier` at line 166 respectively) and so never
return a tensor.  Well-formedness of the external collaborators is assumed:
the embedding matrix has `hidden_size`-wide rows, and the forward pass
yields `num_hidden_layers + 1` hidden-state layers of
`hidden_size`-wide vectors with non-empty batches and sequences. -/
theorem c1_tensor_modes_shape (env : Env) (cfg : ModelConfig) (experts : List Expert)
    (mode : String)
    (hmode : mode = "random" ∨ mode = "uniform_random" ∨ mode = "cheap_embed" ∨
      mode = "hidden" ∨ mode = "hidden_avg" ∨ mode = "hidden_last")
    (hne : experts ≠ [])
    (hembne : env.embedTokens ≠ [])
    (hemb : ∀ v ∈ env.embedTokens, v.length = cfg.hidden_size)
    (hfwd : ∀ tok, (env.forward tok).length = cfg.num_hidden_layers + 1 ∧
      ∀ bat ∈ env.forward tok, bat ≠ [] ∧ ∀ sm ∈ bat, sm ≠ [] ∧
        ∀ v ∈ sm, v.length = cfg.hidden_size) :
    ∃ t, get_gate_params env cfg experts mode = .ok (.tensor t) ∧
      dims3Is t cfg.num_hidden_layers experts.length cfg.hidden_size := by
  have hhlen : ∀ avg : Bool, ∀ tok,
      (hiddenStrategy env avg tok).length = cfg.num_hidden_layers := by
    intro avg tok
    unfold hiddenStrategy
    rw [get_hidden_states_length, (hfwd tok).1]
    omega
  have hhrows : ∀ avg : Bool, ∀ tok, ∀ v ∈ hiddenStrategy env avg tok,
      v.length = cfg.hidden_size := by
    intro avg tok
    exact get_hidden_states_rows (hfwd tok).2 avg
  rcases hmode with rfl | rfl | rfl | rfl | rfl | rfl
  · exact ⟨_, gp_random env cfg experts, randnTensor_dims env cfg experts.length⟩
  · exact ⟨_, gp_uniform env cfg experts, uniformTensor_dims env cfg experts.length⟩
  · exact ⟨_, gp_cheap env cfg experts,
      aggregateGates_dims hne (cheapStrategy_length env cfg) (cheapStrategy_rows hembne hemb)⟩
  · exact ⟨_, gp_hidden env cfg experts,
      aggregateGates_dims hne (hhlen false) (hhrows false)⟩
  · exact ⟨_, gp_hidden_avg env cfg experts,
      aggregateGates_dims hne (hhlen true) (hhrows true)⟩
  · exact ⟨_, gp_hidden_last env cfg experts,
      aggregateGates_dims hne (hhlen false) (hhrows false)⟩

/-- C1 witness: the amended theorem at mode "random" with a one-layer,
one-expert, hidden-size-1 configuration. -/
theorem c1_witness :
    get_gate_params envTriv cfgTriv [expertTriv] "random" =
      .ok (.tensor (randnTensor envTriv cfgTriv [expertTriv].length)) ∧
    dims3Is (randnTensor envTriv cfgTriv [expertTriv].length)
      cfgTriv.num_hidden_layers [expertTriv].length cfgTriv.hidden_size := by
  obtain ⟨t, h1, h2⟩ := c1_tensor_modes_shape envTriv cfgTriv [expertTriv] "random"
    (Or.inl rfl) (by decide) (by decide) (by decide) envTriv_hfwd
  have h1' := (gp_random envTriv cfgTriv [expertTriv]).symm.trans h1
  injection h1' with h2'
  injection h2' with h3
  subst h3
  exact ⟨gp_random envTriv cfgTriv [expertTriv], h2⟩

/-- C4 counterexample: an expert with no negative prompts whose raw
`cheap_embed` vector is nonzero but has norm below the `1e-8` clamp.  The
aggregator divides by the clamp floor instead of the true norm, so the
output vector `[1/10000]` has L2 norm neither 1 nor 0 while the raw
vector `[1/10^12]` is not entirely zero — refuting the claimed
dichotomy.  (`envC4.norm2` is the exact Euclidean norm on the width-1
vectors at which it is consulted.) -/
theorem c4_counterexample :
    expertC4.negative_prompts = [] ∧
    expertRaw envC4 (cheapStrategy envC4 cfgC4) expertC4 = [[1 / 1000000000000]] ∧
    ¬ (∀ x ∈ ([(1 : ℚ) / 1000000000000] : Vec), x = 0) ∧
    get_gate_params envC4 cfgC4 [expertC4] "cheap_embed" =
      .ok (.tensor [[[1 / 10000]]]) ∧
    sumSq [(1 : ℚ) / 10000] ≠ 1 ∧ sumSq [(1 : ℚ) / 10000] ≠ 0 :=
  ⟨rfl, by decide, by decide, by decide, by decide, by decide⟩

/-- C4 (amended): for an expert with no negative prompts, provided the
external norm kernel is the true Euclidean norm on the raw per-layer
vectors, each output row is the raw row divided by
`clamp(norm, 1e-8)`; whenever the raw row's norm is at least the epsilon
`1e-8` the output row has L2 norm exactly 1; whenever the norm is below
the epsilon the row is divided by `1e-8` instead — in particular an
entirely-zero raw row yields the zero row. -/
theorem c4_normalization (env : Env) (strategy : TokenizedBatch → Mat) (e : Expert)
    (hneg : e.negative_prompts = [])
    (hn : ∀ a ∈ expertRaw env strategy e,
      0 ≤ env.norm2 a ∧ env.norm2 a * env.norm2 a = sumSq a) :
    expertGate env strategy e =
      (expertRaw env strategy e).map (fun a => vecDiv a (clampMin (env.norm2 a) eps)) ∧
    ∀ a ∈ expertRaw env strategy e,
      (eps ≤ env.norm2 a → sumSq (vecDiv a (clampMin (env.norm2 a) eps)) = 1) ∧
      (env.norm2 a < eps → vecDiv a (clampMin (env.norm2 a) eps) = vecDiv a eps) ∧
      (sumSq a = 0 → vecDiv a (clampMin (env.norm2 a) eps) = List.replicate a.length 0) := by
  refine ⟨rfl, fun a ha => ⟨?_, ?_, ?_⟩⟩
  · intro hle
    have hcl : clampMin (env.norm2 a) eps = env.norm2 a := by
      unfold clampMin
      rw [if_neg (not_lt.mpr hle)]
    rw [hcl, sumSq_vecDiv, ← (hn a ha).2]
    have hpos : 0 < env.norm2 a := lt_of_lt_of_le (by norm_num [eps]) hle
    exact div_self (ne_of_gt (mul_pos hpos hpos))
  · intro hlt
    have hcl : clampMin (env.norm2 a) eps = eps := by
      unfold clampMin
      rw [if_pos hlt]
    rw [hcl]
  · intro h0
    exact vecDiv_all_zero (sumSq_eq_zero h0) _

/-- C4 witness: the amended theorem at a strategy whose raw vector is
`[3, 4]`, whose Euclidean norm 5 is rational. -/
theorem c4_witness :
    (eps ≤ envW4.norm2 [3, 4] →
      sumSq (vecDiv [3, 4] (clampMin (envW4.norm2 [3, 4]) eps)) = 1) ∧
    (envW4.norm2 [3, 4] < eps →
      vecDiv [3, 4] (clampMin (envW4.norm2 [3, 4]) eps) = vecDiv [3, 4] eps) ∧
    (sumSq ([3, 4] : Vec) = 0 →
      vecDiv [3, 4] (clampMin (envW4.norm2 [3, 4]) eps) =
        List.replicate ([3, 4] : Vec).length 0) :=
  (c4_normalization envW4 strategyW4 expertW4 rfl (by decide)).2 [3, 4] (by decide)

/-- C5: for an expert having both positive and negative prompts, the
pre-normalization combined matrix is exactly the elementwise difference
of the strategy's result on the positive prompts and its result on the
negative prompts (router.py lines 195-199). -/
theorem c5_negative_subtraction (env : Env) (strategy : TokenizedBatch → Mat)
    (e : Expert) (hneg : e.negative_prompts ≠ []) (i j : Nat)
    (hip : i < (strategy (tokenize_prompts env e.positive_prompts)).length)
    (hin : i < (strategy (tokenize_prompts env e.negative_prompts)).length)
    (hjp : j < ((strategy (tokenize_prompts env e.positive_prompts)).getD i []).length)
    (hjn : j < ((strategy (tokenize_prompts env e.negative_prompts)).getD i []).length) :
    ((expertRaw env strategy e).getD i []).getD j 0 =
      ((strategy (tokenize_prompts env e.positive_prompts)).getD i []).getD j 0 -
        ((strategy (tokenize_prompts env e.negative_prompts)).getD i []).getD j 0 := by
  simp only [expertRaw]
  rw [if_pos hneg]
  simp only [matSub]
  rw [getD_zipWith vecSub [] [] [] _ _ i hip hin]
  simp only [vecSub]
  rw [getD_zipWith _ 0 0 0 _ _ j hjp hjn]

/-- C5 witness: positive batch embeds to `[[10, 20]]`, negative batch to
`[[1, 2]]`, and the combined entry is `10 - 1 = 9`. -/
theorem c5_witness :
    ((expertRaw envW5 strategyW5 expertW5).getD 0 []).getD 0 0 =
      ((strategyW5 (tokenize_prompts envW5 expertW5.positive_prompts)).getD 0 []).getD 0 0 -
        ((strategyW5 (tokenize_prompts envW5 expertW5.negative_prompts)).getD 0 []).getD 0 0 :=
  c5_negative_subtraction envW5 strategyW5 expertW5 (by decide) 0 0
    (by decide) (by decide) (by decide) (by decide)

/-- C6: in the `smart_hidden` classifier mode, an expert-dimension
mismatch in the classifier output always fails with the fatal shape
`ValueError` (the spec's ShapeMismatchError), never silently coerced,
while a layer-dimension-only mismatch is repaired by repeat-and-truncate
broadcasting and the computation proceeds to the product without
failing. -/
theorem c6_classifier_shape_policy (probs : T3) (hidden : Mat)
    (L E H : Nat) (h0 : probs ≠ []) (hL : 0 < L) :
    ((probs.headD []).length ≠ E →
      smartHiddenDoit probs hidden L E H =
        .error (.shapeMismatch (probs.headD []).length E)) ∧
    (probs.length ≠ L → (probs.headD []).length = E →
      ((probs.headD []).headD []).length = H →
      smartHiddenDoit probs hidden L E H =
        .ok (broadcastMul (((List.replicate L probs).flatten).take L) hidden) ∧
      (((List.replicate L probs).flatten).take L).length = L) := by
  have hhead := flatten_replicate_take_headD hL h0
  constructor
  · intro hd1
    simp only [smartHiddenDoit]
    rw [if_neg (fun hc => hd1 hc.2.1)]
    by_cases hd0 : probs.length = L
    · have hd0n : ¬(probs.length ≠ L) := not_ne_iff.mpr hd0
      rw [if_neg hd0n, if_pos hd1]
    · have hd0p : probs.length ≠ L := hd0
      rw [if_pos hd0p, hhead, if_pos hd1]
  · intro hd0 hd1 hd2
    refine ⟨?_, flatten_replicate_take_length h0⟩
    have hne1 : ¬((probs.headD []).length ≠ E) := not_ne_iff.mpr hd1
    have hne2 : ¬(((probs.headD []).headD []).length ≠ H) := not_ne_iff.mpr hd2
    simp only [smartHiddenDoit]
    rw [if_neg (fun hc => hd0 hc.1), if_pos hd0, hhead, if_neg hne1, if_neg hne2]

/-- C6 witness: classifier output of shape `(1, 1, 2)` against expected
`(2, 1, 2)` — only the layer dimension mismatches, and the repaired
computation succeeds with the layer dimension fixed to 2. -/
theorem c6_witness :
    smartHiddenDoit probsW6 hiddenW6 2 1 2 =
      .ok (broadcastMul (((List.replicate 2 probsW6).flatten).take 2) hiddenW6) ∧
    (((List.replicate 2 probsW6).flatten).take 2).length = 2 :=
  (c6_classifier_shape_policy probsW6 hiddenW6 2 1 2 (by decide) (by decide)).2
    (by decide) (by decide) (by decide)

/-- C7: for a gate tensor whose layer `idx` contains two identical expert
vectors (a rank-deficient slice, for which the external condition-number
kernel exceeds the threshold), `warn_degenerate_gates` flags `idx` and
returns normally — producing exactly its two advisory warnings, raising
nothing. -/
theorem c7_degenerate_layer_flagged (cond : Mat → ℚ) (gate_vecs : T3)
    (threshold : ℚ) (idx : Nat)
    (hidx : idx < gate_vecs.length)
    (hdup : ∃ a b : Nat, a ≠ b ∧ a < (gate_vecs.getD idx []).length ∧
      b < (gate_vecs.getD idx []).length ∧
      (gate_vecs.getD idx []).getD a [] = (gate_vecs.getD idx []).getD b [])
    (hcond : threshold < cond (gate_vecs.getD idx [])) :
    idx ∈ degenIndices cond gate_vecs threshold ∧
      (warn_degenerate_gates cond gate_vecs threshold).length = 2 := by
  have hmem : idx ∈ degenIndices cond gate_vecs threshold := by
    unfold degenIndices
    rw [List.mem_filter]
    exact ⟨List.mem_range.mpr hidx, decide_eq_true hcond⟩
  refine ⟨hmem, ?_⟩
  simp only [warn_degenerate_gates]
  rw [if_pos (List.ne_nil_of_mem hmem)]
  rfl

/-- C7 witness: one layer with two identical expert vectors `[1, 0]`,
threshold 5 and a kernel value 6 above it. -/
theorem c7_witness :
    0 ∈ degenIndices condW7 gvW7 5 ∧ (warn_degenerate_gates condW7 gvW7 5).length = 2 :=
  c7_degenerate_layer_flagged condW7 gvW7 5 0 (by decide)
    ⟨0, 1, by decide, by decide, by decide, by decide⟩ (by decide)

/-- C8: in mode `cheap_embed` the gate tensor is layer-invariant — for
every expert index `e` and all layer indices `i`, `j`, the `(i, e, :)`
slice equals the `(j, e, :)` slice, because `get_cheap_embedding`
replicates one vector across all layers before normalization. -/
theorem c8_cheap_embed_layer_invariance (env : Env) (cfg : ModelConfig)
    (experts : List Expert) (hne : experts ≠ [])
    (i j e : Nat) (hi : i < cfg.num_hidden_layers) (hj : j < cfg.num_hidden_layers)
    (he : e < experts.length) :
    ∃ t, get_gate_params env cfg experts "cheap_embed" = .ok (.tensor t) ∧
      (t.getD i []).getD e [] = (t.getD j []).getD e [] := by
  refine ⟨aggregateGates env (cheapStrategy env cfg) experts, gp_cheap env cfg experts, ?_⟩
  have hhead : ((experts.map (expertGate env (cheapStrategy env cfg))).headD []).length
      = cfg.num_hidden_layers := by
    cases experts with
    | nil => exact absurd rfl hne
    | cons x xs => exact expertGate_length (cheapStrategy_length env cfg) x
  have hstlen : (experts.map (expertGate env (cheapStrategy env cfg))).length
      = experts.length := List.length_map _ _
  simp only [aggregateGates]
  rw [permute102_getD (by rw [hhead]; exact hi) (by rw [hstlen]; exact he),
    permute102_getD (by rw [hhead]; exact hj) (by rw [hstlen]; exact he),
    getD_map (expertGate env (cheapStrategy env cfg)) [] default experts e he]
  exact expertGate_cheap_rows_eq env cfg _ hi hj

/-- C8 witness: two layers, one expert: the layer-0 and layer-1 vectors
of the cheap-embed gate tensor coincide. -/
theorem c8_witness :
    get_gate_params envTriv cfgW8 [expertTriv] "cheap_embed" =
      .ok (.tensor (aggregateGates envTriv (cheapStrategy envTriv cfgW8) [expertTriv])) ∧
    ((aggregateGates envTriv (cheapStrategy envTriv cfgW8) [expertTriv]).getD 0 []).getD 0 []
      = ((aggregateGates envTriv (cheapStrategy envTriv cfgW8) [expertTriv]).getD 1 []).getD 0 [] := by
  obtain ⟨t, h1, h2⟩ := c8_cheap_embed_layer_invariance envTriv cfgW8 [expertTriv]
    (by decide) 0 1 0 (by decide) (by decide) (by decide)
  have h1' := (gp_cheap envTriv cfgW8 [expertTriv]).symm.trans h1
  injection h1' with h2'
  injection h2' with h3
  subst h3
  exact ⟨gp_cheap envTriv cfgW8 [expertTriv], h2⟩

/-- C9: in mode `uniform_random`, with the uniform source in `[0, 1)` and
`sqrt` the true square root at `1/hidden_size`, the returned tensor has
shape `(num_layers, num_experts, hidden_size)`, every element lies within
`[-s, s]` for `s = sqrt(1/hidden_size)`, and the result is independent of
the tokenizer, the forward pass, the embedding matrix, the norm kernel,
the BOS token, the classifier and the normal source — they are never
consulted. -/
theorem c9_uniform_random_range (env : Env) (cfg : ModelConfig) (experts : List Expert)
    (hrand : ∀ l e k : Nat, 0 ≤ env.rand l e k ∧ env.rand l e k < 1)
    (hsqrt : 0 ≤ env.sqrt (1 / (cfg.hidden_size : ℚ)) ∧
      env.sqrt (1 / (cfg.hidden_size : ℚ)) * env.sqrt (1 / (cfg.hidden_size : ℚ)) =
        1 / (cfg.hidden_size : ℚ)) :
    get_gate_params env cfg experts "uniform_random" =
      .ok (.tensor (uniformTensor env cfg experts.length)) ∧
    dims3Is (uniformTensor env cfg experts.length)
      cfg.num_hidden_layers experts.length cfg.hidden_size ∧
    (∀ m ∈ uniformTensor env cfg experts.length, ∀ v ∈ m, ∀ x ∈ v,
      -(env.sqrt (1 / (cfg.hidden_size : ℚ))) ≤ x ∧
        x ≤ env.sqrt (1 / (cfg.hidden_size : ℚ))) ∧
    (∀ tokf fwdf embf nrmf bosf clsf rndf,
      get_gate_params
        { env with
            tokenize := tokf
            forward := fwdf
            embedTokens := embf
            norm2 := nrmf
            bos_token := bosf
            classifier := clsf
            randn := rndf }
        cfg experts "uniform_random" =
        get_gate_params env cfg experts "uniform_random") := by
  refine ⟨gp_uniform env cfg experts, uniformTensor_dims env cfg experts.length, ?_,
    fun _ _ _ _ _ _ _ => by rw [gp_uniform, gp_uniform]; rfl⟩
  intro m hm v hv x hx
  simp only [uniformTensor, List.mem_map] at hm
  obtain ⟨l, -, rfl⟩ := hm
  simp only [List.mem_map] at hv
  obtain ⟨e, -, rfl⟩ := hv
  simp only [List.mem_map] at hx
  obtain ⟨k, -, rfl⟩ := hx
  obtain ⟨h0, h1⟩ := hrand l e k
  obtain ⟨hs0, -⟩ := hsqrt
  constructor
  · nlinarith [mul_nonneg h0 hs0]
  · nlinarith [mul_nonneg (sub_nonneg.mpr (le_of_lt h1)) hs0]

/-- C9 witness: hidden size 4, uniform source constantly `1/2`, exact
square root `1/2` of `1/4`; the sampled element is 0, inside `[-s, s]`. -/
theorem c9_witness :
    get_gate_params envW9 cfgW9 [expertW9] "uniform_random" =
      .ok (.tensor (uniformTensor envW9 cfgW9 [expertW9].length)) ∧
    (-(envW9.sqrt (1 / (cfgW9.hidden_size : ℚ))) ≤ (0 : ℚ) ∧
      (0 : ℚ) ≤ envW9.sqrt (1 / (cfgW9.hidden_size : ℚ))) := by
  have h := c9_uniform_random_range envW9 cfgW9 [expertW9]
    envW9_hrand ⟨by decide, by decide⟩
  exact ⟨h.1, h.2.2.1 [[0, 0, 0, 0]] (by decide) [0, 0, 0, 0] (by decide) 0 (by decide)⟩

end MergekitRouter
